import Mathlib

/- Shallow embedding of the rheology frequency-sweep analysis script
(src/rheology.py): the spreadsheet loader, the column resolver and the
plot builder, together with proofs of the behavioural properties the
specification states about them.

Modelling conventions:
- pandas dataframes are `DataFrame`: a list of column names plus a list of
  rows of cells; after numeric cleaning a cell is `Option Int` (`none` is
  NaN; values are modelled as integers since the program performs no
  arithmetic on them).
- a raw spreadsheet cell is `Cell`; `toNumeric` models
  `pd.to_numeric(cell, errors=coerce)`: numeric content converts, text and
  blank cells coerce to missing.
- Python `str.strip` / `str.lower` / the `in` substring test are modelled
  on the ASCII range (`pyStrip`, `pyLower`, `pyContains`), which covers
  every header name the program handles.
- `streamlit` calls only display text; a warning or error shown to the
  user is modelled by the control flow that surrounds it (skipping,
  aborting, error records).
- in-place mutation of a dataframe (line 29 of src/rheology.py overwrites
  `df.columns`) is made explicit: the plot builder returns the final state
  of the sample list alongside its result.
-/

/-- Whitespace test for the Python str.strip model: space, tab, CR, LF, VT, FF. -/
def isSpaceChar (c : Char) : Bool :=
  c.toNat == 32 || c.toNat == 9 || c.toNat == 13 || c.toNat == 10 || c.toNat == 11 || c.toNat == 12

/-- ASCII lowercasing of one character, modelling Python str.lower on the ASCII range. -/
def lowerChar (c : Char) : Char :=
  if 65 ≤ c.toNat ∧ c.toNat ≤ 90 then Char.ofNat (c.toNat + 32) else c

/-- Model of Python str.lower. -/
def pyLower (s : String) : String :=
  ⟨s.data.map lowerChar⟩

/-- Leading and trailing whitespace removal on a character list. -/
def stripWs (l : List Char) : List Char :=
  (((l.dropWhile isSpaceChar).reverse.dropWhile isSpaceChar).reverse)

/-- Model of Python str.strip with no argument. -/
def pyStrip (s : String) : String :=
  ⟨stripWs s.data⟩

/-- Contiguous occurrence of one character list inside another. -/
def listContains (hay needle : List Char) : Bool :=
  hay.tails.any (fun t => needle.isPrefixOf t)

/-- Model of the Python substring test: pyContains hay needle is needle in hay. -/
def pyContains (hay needle : String) : Bool :=
  listContains hay.data needle.data

/-- Normalization applied to each column name on line 29 of src/rheology.py:
c.strip().lower(). -/
def normName (s : String) : String :=
  pyLower (pyStrip s)

/-- Raw spreadsheet cell: numeric content, textual content, or blank. -/
inductive Cell where
  | num (v : Int)
  | text (s : String)
  | blank
deriving DecidableEq, Repr

/-- Models pd.to_numeric(cell, errors=coerce) applied to one cell: numeric
content converts to a number, anything else coerces to missing (NaN). -/
def toNumeric : Cell → Option Int
  | .num v => some v
  | .text _ => none
  | .blank => none

/-- One spreadsheet row. -/
abbrev Row := List Cell

/-- One spreadsheet sheet: a list of rows. -/
abbrev Sheet := List Row

/-- An uploaded workbook: its filename and the parsed list of sheets. -/
structure ExcelFile where
  name : String
  sheets : List Sheet
deriving DecidableEq, Repr

/-- Column label a header cell yields when pandas reads the header row. -/
def headerName : Cell → String
  | .num v => toString v
  | .text s => s
  | .blank => ""

/-- Model of a pandas dataframe after numeric cleaning: named columns and
rows of optional numbers (none is NaN). -/
structure DataFrame where
  cols : List String
  rows : List (List (Option Int))
deriving DecidableEq, Repr

/-- Model of pandas df.empty: true when either axis has length zero. -/
def DataFrame.isEmpty (df : DataFrame) : Bool :=
  df.rows.isEmpty || df.cols.isEmpty

/-- Pads or truncates a raw row to the header width, as the spreadsheet
reader conforms every data row to the rectangular sheet extent. -/
def conformRow (w : Nat) (r : Row) : Row :=
  r.take w ++ List.replicate (w - r.length) Cell.blank

/-- Model of lines 108 to 114 of src/rheology.py for one uploaded file:
pd.read_excel with sheet index 1 and header row index 1, followed by
iloc from 1 on, per column pd.to_numeric with errors coerce, and dropna.
The engine choice on line 109 only selects the binary reader and does not
change the resulting table, so it is not modelled. -/
def loadFile (f : ExcelFile) : Except String DataFrame :=
  match f.sheets.get? 1 with
  | none => .error "sheet index 1 out of range"
  | some sheet =>
    match sheet.get? 1 with
    | none => .error "header row index 1 out of range"
    | some hdr =>
      let dataRows := (sheet.drop 2).map (conformRow hdr.length)
      let processed := dataRows.drop 1
      let converted := processed.map (fun r => r.map toNumeric)
      .ok { cols := hdr.map headerName, rows := converted.filter (fun r => r.all Option.isSome) }

/-- Model of the upload loop on lines 102 to 124 of src/rheology.py: each
file is loaded inside try/except; a success appends (table, filename) to
the dataframes list, a failure records an error message carrying the
filename and the cause, and the loop moves on to the next file. -/
def processFiles : List ExcelFile → List (DataFrame × String) × List (String × String)
  | [] => ([], [])
  | f :: fs =>
    let rest := processFiles fs
    match loadFile f with
    | .ok df => ((df, f.name) :: rest.1, rest.2)
    | .error e => (rest.1, (f.name, e) :: rest.2)

/-- Model of lines 29 to 34 of src/rheology.py: the column names are first
normalized by c.strip().lower(); the target is lowercased only; the first
normalized column containing the lowercased target as a substring is
returned, none when no column matches. -/
def resolveColumn (cols : List String) (target : String) : Option String :=
  (cols.map normName).find? (fun c => pyContains c (pyLower target))

/-- Python truthiness of an optional string: None and the empty string are
falsy, as in the check on line 36 of src/rheology.py. -/
def truthy : Option String → Bool
  | none => false
  | some s => !s.data.isEmpty

/-- Extraction of the values of one named column, modelling df[col]:
the first column with that exact label supplies the cell at its index in
every row. -/
def DataFrame.colVals (df : DataFrame) (c : String) : List (Option Int) :=
  match df.cols.findIdx? (fun d => d == c) with
  | none => []
  | some i => df.rows.map (fun r => (r.get? i).join)

/-- One plotted data series: legend label, x values, y values. -/
abbrev Series := String × List (Option Int) × List (Option Int)

/-- Loop of lines 24 to 41 of src/rheology.py, with the in-place column
mutation made explicit. The first component models the figure content
(none when the function returned None on line 41 or line 67); the second
component is the final state of the caller-visible sample list: an empty
table is skipped untouched, a non-empty table has had its column names
overwritten with their normalized forms, and on the abort path the samples
after the offending one are left unvisited. -/
def plotAux (x_col y_col : String) :
    List (DataFrame × String) → List Series → Option (List Series) × List (DataFrame × String)
  | [], acc => (if acc.isEmpty then none else some acc, [])
  | (df, name) :: rest, acc =>
    if df.isEmpty then
      let r := plotAux x_col y_col rest acc
      (r.1, (df, name) :: r.2)
    else
      let dfn : DataFrame := { df with cols := df.cols.map normName }
      let ax := resolveColumn df.cols x_col
      let ay := resolveColumn df.cols y_col
      if truthy ax && truthy ay then
        let r := plotAux x_col y_col rest (acc ++ [(name, dfn.colVals (ax.getD ""), dfn.colVals (ay.getD ""))])
        (r.1, (dfn, name) :: r.2)
      else
        (none, (dfn, name) :: rest)

/-- Rendered figure content: title, axis labels, and the plotted series.
Axis scaling, tick formatting and PNG encoding (lines 44 to 64) do not
change which series are plotted and are not modelled. -/
structure Figure where
  title : String
  xLabel : String
  yLabel : String
  series : List Series
deriving DecidableEq, Repr

/-- Model of create_rheology_plot (lines 16 to 67 of src/rheology.py).
Returns the optional figure (none models the return None, None paths) and
the final state of the sample list. -/
def create_rheology_plot (samples : List (DataFrame × String))
    (x_col y_col title x_label y_label : String) :
    Option Figure × List (DataFrame × String) :=
  let r := plotAux x_col y_col samples []
  (r.1.map (fun s => { title := title, xLabel := x_label, yLabel := y_label, series := s }), r.2)

/-- Static column name configuration of lines 8 to 13 of src/rheology.py. -/
def COLUMN_NAMES : List (String × String) :=
  [("frequency", "Angular Frequency"),
   ("g_prime", "Storage modulus"),
   ("g_double_prime", "Loss modulus"),
   ("complex_viscosity", "Complex viscosity")]

/-- State of one sample after the plot loop has visited it: an empty table
is untouched, a non-empty table has its column names normalized in place. -/
def normSample (p : DataFrame × String) : DataFrame × String :=
  if p.1.isEmpty then p else ({ p.1 with cols := p.1.cols.map normName }, p.2)

/-- Fixture: the two-column frame of the first spec example, prior to any plot call. -/
def dfFreqStorage : DataFrame :=
  { cols := ["Angular Frequency", "Storage modulus"], rows := [[some 1, some 1000]] }

/-- Fixture: a frame that lacks any storage modulus column. -/
def dfFreqViscosity : DataFrame :=
  { cols := ["Angular Frequency", "Complex viscosity"], rows := [[some 2, some 7]] }

/-- Fixture: a frame with zero rows, as left by cleaning a fully non-numeric sheet. -/
def dfNoRows : DataFrame :=
  { cols := ["Angular Frequency", "Storage modulus"], rows := [] }

/-- Fixture: header row of the well-formed workbook below. -/
def hdrGood : Row :=
  [Cell.text "Angular Frequency", Cell.text "Storage modulus"]

/-- Fixture: a data sheet with one junk row, a header row, a units row and
three data rows, one of which has a non-numeric cell. -/
def sheetGood : Sheet :=
  [ [Cell.text "junk"],
    hdrGood,
    [Cell.text "rad/s", Cell.text "Pa"],
    [Cell.num 1, Cell.num 1000],
    [Cell.text "bad", Cell.num 5],
    [Cell.num 10, Cell.num 10000] ]

/-- Fixture: a well-formed two-sheet workbook whose second sheet is sheetGood. -/
def fileGood : ExcelFile :=
  { name := "sample.xlsx", sheets := [[], sheetGood] }

/-- Fixture: the cleaned table the loader produces from fileGood. -/
def dfGood : DataFrame :=
  { cols := ["Angular Frequency", "Storage modulus"],
    rows := [[some 1, some 1000], [some 10, some 10000]] }

/-- Fixture: a workbook with a single sheet, so that sheet index 1 is out of range. -/
def fileOneSheet : ExcelFile :=
  { name := "broken.xls", sheets := [ [ [Cell.num 1] ] ] }

theorem ofNat_toNat_lower_range (m : Nat) (h1 : 97 ≤ m) (h2 : m ≤ 122) :
    (Char.ofNat m).toNat = m := by
  interval_cases m <;> decide

theorem lowerChar_toNat (c : Char) :
    (lowerChar c).toNat = if 65 ≤ c.toNat ∧ c.toNat ≤ 90 then c.toNat + 32 else c.toNat := by
  unfold lowerChar
  split
  · next h => exact ofNat_toNat_lower_range _ (by omega) (by omega)
  · rfl

theorem lowerChar_not_upper (c : Char) (h : ¬(65 ≤ c.toNat ∧ c.toNat ≤ 90)) :
    lowerChar c = c := by
  unfold lowerChar
  rw [if_neg h]

theorem lowerChar_idem (c : Char) : lowerChar (lowerChar c) = lowerChar c := by
  by_cases h : 65 ≤ c.toNat ∧ c.toNat ≤ 90
  · have ht : (lowerChar c).toNat = c.toNat + 32 := by rw [lowerChar_toNat, if_pos h]
    exact lowerChar_not_upper _ (by omega)
  · simp only [lowerChar_not_upper c h]

theorem map_lowerChar_idem (l : List Char) :
    (l.map lowerChar).map lowerChar = l.map lowerChar := by
  rw [List.map_map]
  exact List.map_congr_left (fun c _ => lowerChar_idem c)

theorem pyLower_idem (s : String) : pyLower (pyLower s) = pyLower s := by
  unfold pyLower
  exact congrArg String.mk (map_lowerChar_idem s.data)

/-- Claim C4: for every list of column names and target, the resolver yields
none exactly when no normalized column name contains the lowercased target as
a substring, and otherwise yields the normalized form of the first column, in
table order, whose normalized name contains the target, every earlier column
failing the test. -/
theorem resolveColumn_first_match (cols : List String) (t : String) :
    (resolveColumn cols t = none ↔ ∀ c ∈ cols, pyContains (normName c) (pyLower t) = false)
    ∧ (∀ r, resolveColumn cols t = some r →
        ∃ pre c post, cols = pre ++ c :: post ∧ r = normName c ∧
          pyContains r (pyLower t) = true ∧
          ∀ d ∈ pre, pyContains (normName d) (pyLower t) = false) := by
  induction cols with
  | nil =>
    constructor
    · simp [resolveColumn]
    · intro r hr
      simp [resolveColumn] at hr
  | cons c cs ih =>
    by_cases h : pyContains (normName c) (pyLower t) = true
    · constructor
      · constructor
        · intro hnone
          simp [resolveColumn, List.find?_cons, h] at hnone
        · intro hall
          have := hall c (by simp)
          rw [h] at this
          cases this
      · intro r hr
        simp only [resolveColumn, List.map_cons, List.find?_cons, h] at hr
        refine ⟨[], c, cs, by simp, ?_, ?_, by simp⟩
        · cases hr
          rfl
        · cases hr
          exact h
    · have hf : pyContains (normName c) (pyLower t) = false := by
        cases hpc : pyContains (normName c) (pyLower t)
        · rfl
        · exact absurd hpc h
      have hstep : resolveColumn (c :: cs) t = resolveColumn cs t := by
        simp [resolveColumn, List.find?_cons, hf]
      constructor
      · rw [hstep, ih.1]
        constructor
        · intro hall d hd
          rcases List.mem_cons.mp hd with rfl | hd2
          · exact hf
          · exact hall d hd2
        · intro hall d hd
          exact hall d (List.mem_cons_of_mem _ hd)
      · intro r hr
        rw [hstep] at hr
        obtain ⟨pre, c0, post, hcols, hr0, hcont, hpre⟩ := ih.2 r hr
        refine ⟨c :: pre, c0, post, by simp [hcols], hr0, hcont, ?_⟩
        intro d hd
        rcases List.mem_cons.mp hd with rfl | hd2
        · exact hf
        · exact hpre d hd2

/-- Witness for claim C4 at a concrete table: the first matching column wins. -/
theorem resolveColumn_first_match_witness :
    ∃ pre c post,
      ["Time", " Angular Frequency (rad/s) ", "Angular Frequency backup"] = pre ++ c :: post ∧
      "angular frequency (rad/s)" = normName c ∧
      pyContains "angular frequency (rad/s)" (pyLower "Angular Frequency") = true ∧
      ∀ d ∈ pre, pyContains (normName d) (pyLower "Angular Frequency") = false :=
  (resolveColumn_first_match
    ["Time", " Angular Frequency (rad/s) ", "Angular Frequency backup"] "Angular Frequency").2
    "angular frequency (rad/s)" (by decide)

/-- Counterexample for claim C5: the column named with leading and trailing
blanks around Ang. Frequency does not resolve against the logical name
Angular Frequency, because the lowercased target is not a substring of the
abbreviated normalized column name. -/
theorem resolveColumn_ang_abbrev_fails :
    resolveColumn [" Ang. Frequency (rad/s) "] "Angular Frequency" = none := by
  decide

/-- Claim C5 (amended): resolution is substring-based on column names
normalized by trimming and lowercasing, matched against the lowercased
target; a column with spelled-out name resolves against Angular Frequency
regardless of case and surrounding whitespace, while the abbreviated column
of the original claim does not resolve. -/
theorem resolveColumn_substring_normalized :
    resolveColumn [" Angular Frequency (rad/s) "] "Angular Frequency"
        = some "angular frequency (rad/s)"
    ∧ resolveColumn [" Angular FREQUENCY (rad/s) "] "ANGULAR Frequency"
        = some "angular frequency (rad/s)"
    ∧ resolveColumn [" Ang. Frequency (rad/s) "] "Angular Frequency" = none := by
  exact ⟨by decide, by decide, by decide⟩

/-- Counterexample for claim C6: a target with a leading blank does not match
the same columns as the trimmed target, because the code lowercases the
target but never strips it. -/
theorem resolveColumn_target_whitespace_sensitive :
    ¬ resolveColumn ["frequency"] " frequency" = resolveColumn ["frequency"] "frequency" := by
  decide

/-- Claim C6 (amended): the resolver normalizes every column name to
lowercase trimmed form but the target to lowercase only; lowercasing the
target first is a no-op, while a target with leading or trailing whitespace
can fail to match columns that the trimmed target matches. -/
theorem resolveColumn_target_lowercased_only :
    (∀ cols t, resolveColumn cols (pyLower t) = resolveColumn cols t)
    ∧ resolveColumn ["frequency"] " frequency" = none
    ∧ resolveColumn ["frequency"] "frequency" = some "frequency" := by
  refine ⟨?_, by decide, by decide⟩
  intro cols t
  unfold resolveColumn
  rw [pyLower_idem]

theorem conformRow_length (w : Nat) (r : Row) : (conformRow w r).length = w := by
  simp [conformRow]
  omega

/-- Claim C2: every row retained by the loader is complete (one numeric cell
per column, no missing value anywhere), and the image of any raw row with a
cell that fails numeric conversion is absent from the cleaned table. -/
theorem loadFile_row_completeness (f : ExcelFile) (df : DataFrame) (h : loadFile f = .ok df) :
    (∀ row ∈ df.rows, row.length = df.cols.length ∧ ∀ cell ∈ row, cell.isSome = true)
    ∧ ∀ row : Row, (∃ c ∈ row, toNumeric c = none) → row.map toNumeric ∉ df.rows := by
  unfold loadFile at h
  split at h
  next => exact Except.noConfusion h
  next sheet hs =>
  split at h
  next => exact Except.noConfusion h
  next hdr hr =>
  injection h with h
  subst h
  have hall : ∀ row ∈ (((sheet.drop 2).map (conformRow hdr.length)).drop 1).map
        (fun r => r.map toNumeric) |>.filter (fun r => r.all Option.isSome),
      row.length = (hdr.map headerName).length ∧ ∀ cell ∈ row, cell.isSome = true := by
    intro row hrow
    rw [List.mem_filter] at hrow
    obtain ⟨hmem, hsome⟩ := hrow
    obtain ⟨r0, hr0, hrow0⟩ := List.mem_map.mp hmem
    have hr0m : r0 ∈ (sheet.drop 2).map (conformRow hdr.length) := List.mem_of_mem_drop hr0
    obtain ⟨r1, _, hr1⟩ := List.mem_map.mp hr0m
    constructor
    · rw [← hrow0, List.length_map, ← hr1, conformRow_length, List.length_map]
    · intro cell hcell
      exact List.all_eq_true.mp hsome cell hcell
  constructor
  · exact hall
  · intro row hbad hmem
    obtain ⟨c, hc, hcnone⟩ := hbad
    have hnone : (none : Option Int) ∈ row.map toNumeric := List.mem_map.mpr ⟨c, hc, hcnone⟩
    have := (hall _ hmem).2 none hnone
    simp at this

/-- Witness for claim C2 at a concrete workbook. -/
theorem loadFile_row_completeness_witness :
    (∀ row ∈ dfGood.rows, row.length = dfGood.cols.length ∧ ∀ cell ∈ row, cell.isSome = true)
    ∧ ∀ row : Row, (∃ c ∈ row, toNumeric c = none) → row.map toNumeric ∉ dfGood.rows :=
  loadFile_row_completeness fileGood dfGood (by rfl)

/-- Claim C3: the loader reads the sheet at index 1, takes the row at index 1
of that sheet as the header, takes the following rows as data, and drops the
first data row unconditionally before numeric cleaning, so the cleaned rows
are exactly the numeric cleaning of the sheet rows from index 3 on. -/
theorem loadFile_positional (f : ExcelFile) (sheet : Sheet) (hdr : Row)
    (h1 : f.sheets.get? 1 = some sheet) (h2 : sheet.get? 1 = some hdr) :
    loadFile f = .ok
      { cols := hdr.map headerName,
        rows := ((sheet.drop 3).map (fun r => (conformRow hdr.length r).map toNumeric)).filter
                  (fun r => r.all Option.isSome) } := by
  have hd : ((sheet.drop 2).map (conformRow hdr.length)).drop 1
      = (sheet.drop 3).map (conformRow hdr.length) := by
    rw [← List.map_drop, List.drop_drop]
  unfold loadFile
  simp only [h1, h2]
  rw [hd, List.map_map]
  rfl

/-- Witness for claim C3 at a concrete workbook. -/
theorem loadFile_positional_witness : loadFile fileGood = .ok dfGood :=
  (loadFile_positional fileGood sheetGood hdrGood (by rfl) (by rfl)).trans (by rfl)

/-- Claim C8: when loading one file of a batch fails, the error is recorded
together with that filename, the file contributes no table, and every other
file of the batch is still processed, yielding exactly the tables of the
files before and after the failing one. -/
theorem processFiles_skips_failed (pre post : List ExcelFile) (f : ExcelFile) (e : String)
    (h : loadFile f = .error e) :
    (processFiles (pre ++ f :: post)).1 = (processFiles pre).1 ++ (processFiles post).1
    ∧ (f.name, e) ∈ (processFiles (pre ++ f :: post)).2 := by
  induction pre with
  | nil =>
    constructor
    · simp [processFiles, h]
    · simp [processFiles, h]
  | cons g gs ih =>
    rw [List.cons_append]
    constructor
    · show (processFiles (g :: (gs ++ f :: post))).1
          = (processFiles (g :: gs)).1 ++ (processFiles post).1
      simp only [processFiles]
      cases hg : loadFile g
      · simpa using ih.1
      · simpa using ih.1
    · show (f.name, e) ∈ (processFiles (g :: (gs ++ f :: post))).2
      simp only [processFiles]
      cases hg : loadFile g
      · simp [ih.2]
      · simp [ih.2]

/-- Witness for claim C8: a workbook with a single sheet fails to load and is
skipped while the surrounding files still yield their tables. -/
theorem processFiles_skips_failed_witness :
    (processFiles ([fileGood] ++ fileOneSheet :: [fileGood])).1
        = (processFiles [fileGood]).1 ++ (processFiles [fileGood]).1
    ∧ (fileOneSheet.name, "sheet index 1 out of range")
        ∈ (processFiles ([fileGood] ++ fileOneSheet :: [fileGood])).2 :=
  processFiles_skips_failed [fileGood] [fileGood] fileOneSheet "sheet index 1 out of range" (by rfl)

/-- Claim C9: the loader is a pure function of the file contents and name, so
loading the same file twice in one batch yields two identical cleaned tables. -/
theorem loadFile_deterministic (f g : ExcelFile) (h1 : f.name = g.name) (h2 : f.sheets = g.sheets) :
    loadFile f = loadFile g
    ∧ ∀ df, loadFile f = .ok df → (processFiles [f, g]).1 = [(df, f.name), (df, f.name)] := by
  have hfg : f = g := by
    cases f
    cases g
    simp only at h1 h2
    rw [h1, h2]
  subst hfg
  refine ⟨rfl, ?_⟩
  intro df hdf
  simp [processFiles, hdf]

/-- Witness for claim C9: uploading the same workbook twice yields the same
cleaned table twice. -/
theorem loadFile_deterministic_witness :
    (processFiles [fileGood, fileGood]).1 = [(dfGood, fileGood.name), (dfGood, fileGood.name)] :=
  (loadFile_deterministic fileGood fileGood rfl rfl).2 dfGood (by rfl)

theorem plotAux_unresolved (x y : String) :
    ∀ (l : List (DataFrame × String)) (acc : List Series),
      (∃ p ∈ l, p.1.isEmpty = false ∧
        (resolveColumn p.1.cols x = none ∨ resolveColumn p.1.cols y = none)) →
      (plotAux x y l acc).1 = none := by
  intro l
  induction l with
  | nil =>
    intro acc h
    obtain ⟨p, hp, _⟩ := h
    simp at hp
  | cons q rest ih =>
    intro acc h
    obtain ⟨p, hp, hne, hres⟩ := h
    obtain ⟨df, name⟩ := q
    by_cases hemp : df.isEmpty = true
    · have hpr : p ∈ rest := by
        rcases List.mem_cons.mp hp with rfl | h2
        · rw [hemp] at hne
          cases hne
        · exact h2
      simp only [plotAux, hemp, if_pos]
      exact ih acc ⟨p, hpr, hne, hres⟩
    · rcases List.mem_cons.mp hp with rfl | h2
      · have hfalse : (truthy (resolveColumn df.cols x) && truthy (resolveColumn df.cols y)) = false := by
          rcases hres with hx | hy
          · simp only at hx
            simp [hx, truthy]
          · simp only at hy
            simp [hy, truthy]
        simp [plotAux, hemp, hfalse]
      · by_cases hc : (truthy (resolveColumn df.cols x) && truthy (resolveColumn df.cols y)) = true
        · simp only [plotAux, hemp, hc]
          simp only [Bool.false_eq_true, if_false, if_pos]
          exact ih _ ⟨p, h2, hne, hres⟩
        · simp [plotAux, hemp, hc]

theorem plotAux_all_empty (x y : String) :
    ∀ (l : List (DataFrame × String)) (acc : List Series),
      (∀ p ∈ l, p.1.isEmpty = true) →
      plotAux x y l acc = (if acc.isEmpty then none else some acc, l) := by
  intro l
  induction l with
  | nil =>
    intro acc _
    simp [plotAux]
  | cons q rest ih =>
    intro acc h
    obtain ⟨df, name⟩ := q
    have hq : df.isEmpty = true := h (df, name) (by simp)
    have hrest : ∀ p ∈ rest, p.1.isEmpty = true := fun p hp => h p (List.mem_cons_of_mem _ hp)
    simp [plotAux, hq, ih acc hrest]

theorem plotAux_some_ne_nil (x y : String) :
    ∀ (l : List (DataFrame × String)) (acc : List Series) (s : List Series),
      (plotAux x y l acc).1 = some s → s ≠ [] := by
  intro l
  induction l with
  | nil =>
    intro acc s h
    by_cases ha : acc.isEmpty
    · simp [plotAux, ha] at h
    · have hacc : acc = s := by simpa [plotAux, ha] using h
      intro hnil
      apply ha
      rw [← hacc] at hnil
      simp [hnil]
  | cons q rest ih =>
    intro acc s h
    obtain ⟨df, name⟩ := q
    by_cases hemp : df.isEmpty = true
    · simp only [plotAux, hemp, if_pos] at h
      exact ih acc s h
    · by_cases hc : (truthy (resolveColumn df.cols x) && truthy (resolveColumn df.cols y)) = true
      · simp only [plotAux, hemp, hc] at h
        simp only [Bool.false_eq_true, if_false, if_pos] at h
        exact ih _ s h
      · simp [plotAux, hemp, hc] at h

theorem plotAux_state (x y : String) :
    ∀ (l : List (DataFrame × String)) (acc : List Series),
      ((plotAux x y l acc).1 ≠ none → (plotAux x y l acc).2 = l.map normSample)
      ∧ ∃ k, (plotAux x y l acc).2 = (l.take k).map normSample ++ l.drop k := by
  intro l
  induction l with
  | nil =>
    intro acc
    constructor
    · intro _
      simp [plotAux]
    · exact ⟨0, by simp [plotAux]⟩
  | cons q rest ih =>
    intro acc
    obtain ⟨df, name⟩ := q
    by_cases hemp : df.isEmpty = true
    · have hns : normSample (df, name) = (df, name) := by simp [normSample, hemp]
      constructor
      · intro h1
        simp only [plotAux, hemp, if_pos] at h1 ⊢
        rw [List.map_cons, hns, (ih acc).1 h1]
      · obtain ⟨k, hk⟩ := (ih acc).2
        refine ⟨k + 1, ?_⟩
        simp only [plotAux, hemp, if_pos, List.take_succ_cons, List.drop_succ_cons,
          List.map_cons, hns, List.cons_append]
        rw [hk]
    · have hns : normSample (df, name) = ({ df with cols := df.cols.map normName }, name) := by
        simp [normSample, hemp]
      by_cases hc : (truthy (resolveColumn df.cols x) && truthy (resolveColumn df.cols y)) = true
      · constructor
        · intro h1
          simp only [plotAux, hemp, hc] at h1 ⊢
          simp only [Bool.false_eq_true, if_false, if_pos] at h1 ⊢
          rw [List.map_cons, hns, (ih _).1 h1]
        · obtain ⟨k, hk⟩ := (ih (acc ++ [(name,
            (DataFrame.mk (df.cols.map normName) df.rows).colVals
              ((resolveColumn df.cols x).getD ""),
            (DataFrame.mk (df.cols.map normName) df.rows).colVals
              ((resolveColumn df.cols y).getD ""))])).2
          refine ⟨k + 1, ?_⟩
          simp only [plotAux, hemp, hc, List.take_succ_cons, List.drop_succ_cons,
            List.map_cons, hns, List.cons_append]
          simp only [Bool.false_eq_true, if_false, if_pos]
          rw [hk]
      · constructor
        · intro h1
          exfalso
          apply h1
          simp [plotAux, hemp, hc]
        · refine ⟨1, ?_⟩
          simp [plotAux, hemp, hc, hns]

/-- Claim C1: if any sample with a non-empty table fails to resolve its x or
its y column, the plot builder returns no figure at all for that metric, even
when other samples resolve both columns. -/
theorem create_rheology_plot_aborts_on_unresolved
    (samples : List (DataFrame × String)) (x y title xl yl : String)
    (h : ∃ p ∈ samples, p.1.isEmpty = false ∧
      (resolveColumn p.1.cols x = none ∨ resolveColumn p.1.cols y = none)) :
    (create_rheology_plot samples x y title xl yl).1 = none := by
  simp only [create_rheology_plot]
  rw [plotAux_unresolved x y samples [] h]
  rfl

/-- Witness for claim C1: the second of two samples lacks a storage modulus
column, and the whole metric yields no figure. -/
theorem create_rheology_plot_aborts_on_unresolved_witness :
    (create_rheology_plot [(dfFreqStorage, "s1"), (dfFreqViscosity, "s2")]
      "Angular Frequency" "Storage modulus" "T" "X" "Y").1 = none :=
  create_rheology_plot_aborts_on_unresolved _ _ _ _ _ _
    ⟨(dfFreqViscosity, "s2"), by decide, by decide, Or.inr (by decide)⟩

theorem plotAux_skip_mid (x y : String) (df : DataFrame) (name : String)
    (rest : List (DataFrame × String)) (hemp : df.isEmpty = true) :
    ∀ (pre : List (DataFrame × String)) (acc : List Series),
      (plotAux x y (pre ++ (df, name) :: rest) acc).1 = (plotAux x y (pre ++ rest) acc).1 := by
  intro pre
  induction pre with
  | nil =>
    intro acc
    simp only [List.nil_append, plotAux, hemp, if_pos]
  | cons q pre ih =>
    intro acc
    obtain ⟨dq, nq⟩ := q
    by_cases hq : dq.isEmpty = true
    · simp only [List.cons_append, plotAux, hq, if_pos]
      exact ih acc
    · by_cases hc : (truthy (resolveColumn dq.cols x) && truthy (resolveColumn dq.cols y)) = true
      · simp only [List.cons_append, plotAux, hq, hc]
        simp only [Bool.false_eq_true, if_false, if_pos]
        exact ih _
      · simp [List.cons_append, plotAux, hq, hc]

/-- Claim C7: a sample with an empty table, at any position in the sample
list, is skipped without affecting the figure built from the remaining
samples; when every table is empty the result is none; and a returned figure
always contains at least one plotted series, so none is returned exactly when
zero samples were plotted. -/
theorem create_rheology_plot_empty_skip (x y title xl yl : String)
    (df : DataFrame) (name : String) (pre rest samples : List (DataFrame × String)) :
    (df.isEmpty = true →
      (create_rheology_plot (pre ++ (df, name) :: rest) x y title xl yl).1
        = (create_rheology_plot (pre ++ rest) x y title xl yl).1)
    ∧ ((∀ p ∈ samples, p.1.isEmpty = true) →
      (create_rheology_plot samples x y title xl yl).1 = none)
    ∧ (∀ fig, (create_rheology_plot samples x y title xl yl).1 = some fig → fig.series ≠ []) := by
  refine ⟨?_, ?_, ?_⟩
  · intro hemp
    simp only [create_rheology_plot]
    rw [plotAux_skip_mid x y df name rest hemp pre []]
  · intro hall
    have hrun := plotAux_all_empty x y samples [] hall
    simp [create_rheology_plot, hrun]
  · intro fig hfig
    simp only [create_rheology_plot] at hfig
    rcases ho : (plotAux x y samples []).1 with _ | s
    · rw [ho] at hfig
      cases hfig
    · rw [ho] at hfig
      have hs : s ≠ [] := plotAux_some_ne_nil x y samples [] s ho
      injection hfig with hfig
      rw [← hfig]
      simpa using hs

/-- Witness for claim C7: an empty-table sample in the middle of the list,
between two non-empty samples, is skipped, an all-empty batch yields none,
and a successful figure has a non-empty series list. -/
theorem create_rheology_plot_empty_skip_witness :
    ((create_rheology_plot ([(dfFreqStorage, "s1")] ++ (dfNoRows, "e") :: [(dfFreqStorage, "s3")])
        "Angular Frequency" "Storage modulus" "T" "X" "Y").1
      = (create_rheology_plot ([(dfFreqStorage, "s1")] ++ [(dfFreqStorage, "s3")])
        "Angular Frequency" "Storage modulus" "T" "X" "Y").1)
    ∧ ((create_rheology_plot [(dfNoRows, "e")]
        "Angular Frequency" "Storage modulus" "T" "X" "Y").1 = none)
    ∧ ({ title := "T", xLabel := "X", yLabel := "Y", series := [("s1", [some 1], [some 1000])] } : Figure).series ≠ [] :=
  ⟨(create_rheology_plot_empty_skip "Angular Frequency" "Storage modulus" "T" "X" "Y"
      dfNoRows "e" [(dfFreqStorage, "s1")] [(dfFreqStorage, "s3")] []).1 (by decide),
   (create_rheology_plot_empty_skip "Angular Frequency" "Storage modulus" "T" "X" "Y"
      dfNoRows "e" [] [] [(dfNoRows, "e")]).2.1 (by decide),
   (create_rheology_plot_empty_skip "Angular Frequency" "Storage modulus" "T" "X" "Y"
      dfNoRows "e" [] [] [(dfFreqStorage, "s1")]).2.2 _ (by rfl)⟩

/-- Claim C10: the plot builder mutates its input in place: every non-empty
table it processes has its column names overwritten with their stripped,
lowercased forms; on a run that returns a figure the whole sample list is
normalized, and in general the visited prefix is normalized while the
samples beyond an abort keep their original headers. -/
theorem create_rheology_plot_normalizes_in_place
    (samples : List (DataFrame × String)) (x y title xl yl : String) :
    ((create_rheology_plot samples x y title xl yl).1 ≠ none →
      (create_rheology_plot samples x y title xl yl).2 = samples.map normSample)
    ∧ ∃ k, (create_rheology_plot samples x y title xl yl).2
        = (samples.take k).map normSample ++ samples.drop k := by
  constructor
  · intro h1
    have hne : (plotAux x y samples []).1 ≠ none := by
      intro h0
      apply h1
      simp [create_rheology_plot, h0]
    have hst := (plotAux_state x y samples []).1 hne
    simpa [create_rheology_plot] using hst
  · obtain ⟨k, hk⟩ := (plotAux_state x y samples []).2
    exact ⟨k, by simpa [create_rheology_plot] using hk⟩

/-- Witness for claim C10: after one successful plot call the stored table
carries stripped lowercased column names in place of the originals. -/
theorem create_rheology_plot_normalizes_in_place_witness :
    (create_rheology_plot [(dfFreqStorage, "s1")]
        "Angular Frequency" "Storage modulus" "T" "X" "Y").2
      = [({ cols := ["angular frequency", "storage modulus"], rows := [[some 1, some 1000]] }, "s1")] :=
  ((create_rheology_plot_normalizes_in_place [(dfFreqStorage, "s1")]
      "Angular Frequency" "Storage modulus" "T" "X" "Y").1 (by decide)).trans (by decide)
